import Mathlib

/-!
Shallow embedding of the restaurant-menu analysis program (`src/main.py`) and
proofs about its data-validation and derived-metrics pipeline.

Modelling conventions:
* Python `float` values are modelled as exact rationals (`ℚ`).  Numeric string
  parsing (`float(...)`, `int(...)`) is modelled on plain decimal literals with
  an optional sign; Python's additional tolerance for surrounding whitespace,
  underscores, and exponent forms is not exercised by this data format and is
  not modelled.
* Python `str.split(',')` is modelled character-by-character (`splitComma`).
* The insertion-ordered Python `dict` built by the loader is modelled as an
  association list with Python's update-in-place / append-at-end semantics
  (`dictInsert`).
* Functions that raise `ValueError` are modelled in `Except String`, carrying
  the message of the exception they raise; functions that catch all row errors
  and return `None` are modelled in `Option`.
* Console rendering (table layout, banner art, interactive prompts) is out of
  scope; the classification functions are modelled by the list of items they
  select, in order.
-/

-- Batteries marks the arithmetic on `Rat` `@[irreducible]`; re-enable
-- unfolding so that concrete rational computations can be settled by `decide`.
attribute [local semireducible] Rat.add Rat.mul Rat.sub Rat.inv Rat.ofScientific

deriving instance DecidableEq for Except

/-- Python `s.split(',')` on the character list of `s`: splits at every comma,
keeping empty pieces, and always yields at least one piece. -/
def splitComma : List Char → List (List Char)
  | [] => [[]]
  | c :: cs =>
    if c = ',' then [] :: splitComma cs
    else
      match splitComma cs with
      | [] => [[c]]
      | t :: ts => (c :: t) :: ts

/-- Accumulating base-10 digit-string value (the characters must be digits). -/
def natFromDigits (acc : ℕ) : List Char → ℕ
  | [] => acc
  | c :: cs => natFromDigits (acc * 10 + (c.toNat - 48)) cs

/-- A non-empty all-digit string, as a natural number. -/
def parseNatDigits (cs : List Char) : Option ℕ :=
  if !cs.isEmpty && cs.all Char.isDigit then some (natFromDigits 0 cs) else none

/-- Python `int(s)` on a plain decimal integer literal: optional sign followed
by at least one digit. -/
def parsePyInt : List Char → Option ℤ
  | '-' :: rest => (parseNatDigits rest).map (fun n => -(n : ℤ))
  | '+' :: rest => (parseNatDigits rest).map (fun n => (n : ℤ))
  | cs => (parseNatDigits cs).map (fun n => (n : ℤ))

/-- Unsigned part of Python `float(s)`: digits, optionally a dot and more
digits, with at least one digit overall.  The value is exact in `ℚ`. -/
def parsePyFloatUnsigned (cs : List Char) : Option ℚ :=
  let ip := cs.takeWhile Char.isDigit
  match cs.dropWhile Char.isDigit with
  | [] => if ip.isEmpty then none else some ((natFromDigits 0 ip : ℕ) : ℚ)
  | '.' :: fp =>
    if fp.all Char.isDigit && (!ip.isEmpty || !fp.isEmpty) then
      some (((natFromDigits 0 ip : ℕ) : ℚ) +
        ((natFromDigits 0 fp : ℕ) : ℚ) / ((10 ^ fp.length : ℕ) : ℚ))
    else none
  | _ => none

/-- Python `float(s)` on a plain decimal literal with optional sign. -/
def parsePyFloat : List Char → Option ℚ
  | '-' :: rest => (parsePyFloatUnsigned rest).map (fun q => -q)
  | '+' :: rest => parsePyFloatUnsigned rest
  | cs => parsePyFloatUnsigned cs

/-- Length of a `w`-character digit string (of numeric value `m < 10^w`) after
Python `.rstrip('0')`: trailing zero digits are discarded. -/
def strippedLen : ℕ → ℕ → ℕ
  | 0, _ => 0
  | w + 1, m => if m % 10 = 0 then strippedLen w (m / 10) else w + 1

/-- Round to the nearest integer, ties to even — the rounding applied by
Python's fixed-point float formatting `f"{value:.kf}"` (on values it
represents exactly). -/
def roundHalfEven (x : ℚ) : ℤ :=
  let n := ⌊x⌋
  let r := x - (n : ℚ)
  if r < 1 / 2 then n
  else if 1 / 2 < r then n + 1
  else if n % 2 = 0 then n else n + 1

/-- `validate_float_precision` (src/main.py lines 49-72): format the value
with `max_decimals + 1` fractional digits, strip trailing zeros from the
fractional part, and accept iff at most `max_decimals` digits remain.
`true` models the Python `return True`; `false` models the raised
`ValueError` ("Value ... exceeds the allowed ... decimal places."). -/
def validate_float_precision (value : ℚ) (max_decimals : ℕ) : Bool :=
  let scaled : ℤ := roundHalfEven (value * ((10 ^ (max_decimals + 1) : ℕ) : ℚ))
  let fractional_part : ℕ := scaled.natAbs % 10 ^ (max_decimals + 1)
  decide (strippedLen (max_decimals + 1) fractional_part ≤ max_decimals)

/-- The fixed weekday keys, in the program's fixed order
(src/main.py line 37). -/
def days_of_week : List String := ["Mon", "Tue", "Wed", "Thu", "Fri", "Sat", "Sun"]

/-- A validated menu item (class `MenuItem`, src/main.py lines 24-45). -/
structure MenuItem where
  item : String
  price : ℚ
  category : String
  ratings : List ℚ
  sales_per_day : List (String × ℤ)
deriving DecidableEq

/-- Message of the `ValueError` raised by Python `float` on a bad literal. -/
def floatConversionError (tok : String) : String :=
  "could not convert string to float: '" ++ tok ++ "'"

/-- Message of the `ValueError` raised by Python `int` on a bad literal. -/
def intConversionError (tok : String) : String :=
  "invalid literal for int() with base 10: '" ++ tok ++ "'"

/-- Message of the explicit empty-ratings `ValueError` in `MenuItem.__init__`
(src/main.py line 34). -/
def emptyRatingsError (item : String) : String :=
  "Ratings cannot be empty for item '" ++ item ++ "'."

/-- Message of the sales-arity `ValueError` in `MenuItem.__init__`
(src/main.py line 40); it names the expected count 7. -/
def salesArityError (item : String) : String :=
  "Sales per day must have exactly 7 values for item '" ++ item ++ "'."

/-- `[float(r) for r in ...]`: parse every token, failing at the first token
that is not a float literal. -/
def parseFloatList : List (List Char) → Except String (List ℚ)
  | [] => Except.ok []
  | t :: ts =>
    match parsePyFloat t with
    | none => Except.error (floatConversionError (String.mk t))
    | some q =>
      match parseFloatList ts with
      | Except.error e => Except.error e
      | Except.ok qs => Except.ok (q :: qs)

/-- `int(sales)` over the token list, failing at the first token that is not
an integer literal. -/
def parseIntList : List (List Char) → Except String (List ℤ)
  | [] => Except.ok []
  | t :: ts =>
    match parsePyInt t with
    | none => Except.error (intConversionError (String.mk t))
    | some n =>
      match parseIntList ts with
      | Except.error e => Except.error e
      | Except.ok ns => Except.ok (n :: ns)

/-- `MenuItem.__init__` (src/main.py lines 26-41): split and parse the ratings
field, reject an empty ratings list, split the sales field, require exactly 7
tokens, parse them as integers, and zip them positionally with the fixed
weekday keys.  `Except.error` carries the raised `ValueError` message. -/
def MenuItem.init (item : String) (price : ℚ) (category : String)
    (ratings : String) (sales_per_day : String) : Except String MenuItem :=
  match parseFloatList (splitComma ratings.data) with
  | Except.error e => Except.error e
  | Except.ok rs =>
    if rs = [] then
      Except.error (emptyRatingsError item)
    else
      let sales_values := splitComma sales_per_day.data
      if sales_values.length ≠ 7 then
        Except.error (salesArityError item)
      else
        match parseIntList sales_values with
        | Except.error e => Except.error e
        | Except.ok sv =>
          Except.ok ⟨item, price, category, rs, days_of_week.zip sv⟩

/-- `MenuItem.average_rating` (src/main.py lines 43-45), including the
zero-ratings fallback branch of the source. -/
def MenuItem.average_rating (m : MenuItem) : ℚ :=
  if m.ratings = [] then 0 else m.ratings.sum / (m.ratings.length : ℚ)

/-- `sum(item.sales_per_day.values())` as computed in the analysis functions
(src/main.py lines 261, 295, 332). -/
def MenuItem.total_sales (m : MenuItem) : ℤ :=
  (m.sales_per_day.map Prod.snd).sum

/-- `(total_sales * 0.6) + (avg_rating * 10 * 0.4)` (src/main.py line 263). -/
def MenuItem.popularity_score (m : MenuItem) : ℚ :=
  ((m.total_sales : ℚ) * (0.6 : ℚ)) + (m.average_rating * 10 * (0.4 : ℚ))

/-- One CSV data row, as the `csv.DictReader` hands it to the loader after the
schema has been validated: the five required fields, as raw text. -/
structure Row where
  item : String
  price : String
  category : String
  ratings : String
  sales_per_day : String
deriving DecidableEq

/-- The body of the per-row `try` block of `load_data_from_csv`
(src/main.py lines 198-210): parse the price, gate it through
`validate_float_precision`, then construct the `MenuItem`. -/
def parseRow (row : Row) : Except String MenuItem :=
  match parsePyFloat row.price.data with
  | none => Except.error (floatConversionError row.price)
  | some price =>
    if validate_float_precision price 2 then
      MenuItem.init row.item price row.category row.ratings row.sales_per_day
    else
      Except.error "Value exceeds the allowed 2 decimal places."

/-- Python dict assignment `menu_items[name] = item` on an insertion-ordered
association list: update in place if the key is present, append otherwise. -/
def dictInsert (d : List (String × MenuItem)) (k : String) (v : MenuItem) :
    List (String × MenuItem) :=
  if d.any (fun p => p.1 == k) then
    d.map (fun p => if p.1 == k then (k, v) else p)
  else d ++ [(k, v)]

/-- Lookup in the insertion-ordered association list. -/
def dictFind (d : List (String × MenuItem)) (k : String) : Option MenuItem :=
  (d.find? (fun p => p.1 == k)).map Prod.snd

/-- The row loop of `load_data_from_csv` (src/main.py lines 196-215): on the
first row whose `try` block raises, the whole load returns `None`; otherwise
every parsed item is keyed by its row's `item` field. -/
def loadRows (acc : List (String × MenuItem)) :
    List Row → Option (List (String × MenuItem))
  | [] => some acc
  | row :: rest =>
    match parseRow row with
    | Except.error _ => none
    | Except.ok it => loadRows (dictInsert acc row.item it) rest

/-- `load_data_from_csv` (src/main.py lines 188-221): `none` models the
`return None` taken on any row failure, `some` the fully-loaded mapping. -/
def load_data_from_csv (rows : List Row) : Option (List (String × MenuItem)) :=
  loadRows [] rows

/-- The required column set of `validate_csv_structure`
(src/main.py line 141). -/
def required_fields : List String :=
  ["item", "price", "category", "ratings", "sales_per_day"]

/-- The missing-columns list computed by `validate_csv_structure`
(src/main.py lines 151-152). -/
def missing_fields (fieldnames : List String) : List String :=
  required_fields.filter (fun f => !fieldnames.contains f)

/-- `validate_csv_structure` (src/main.py lines 139-166) on the header of the
file: `none` models an absent header (`reader.fieldnames` is `None`), and an
empty header list is likewise falsy in the source's `if not reader.fieldnames`
check.  Reports `false` when any required column is missing (the source also
prints the `missing_fields` list). -/
def validate_csv_structure (fieldnames : Option (List String)) : Bool :=
  match fieldnames with
  | none => false
  | some fns =>
    if fns.isEmpty then false
    else (missing_fields fns).isEmpty

/-- The data pipeline of `main` (src/main.py lines 373-381): the loader runs
only if the structure validation succeeded; otherwise the run terminates with
no data. -/
def main_flow (fieldnames : Option (List String)) (rows : List Row) :
    Option (List (String × MenuItem)) :=
  if validate_csv_structure fieldnames then load_data_from_csv rows else none

/-- `identify_underrated_items` (src/main.py lines 288-306), modelled by the
list of items selected by its threshold test `avg_rating >= 4.5 and
total_sales < 50` (rendering is out of scope; an empty selection just prints a
notice and is not an error). -/
def identify_underrated_items (menu_items : List (String × MenuItem)) :
    List MenuItem :=
  (menu_items.map Prod.snd).filter
    (fun m => decide (m.average_rating ≥ (4.5 : ℚ) ∧ m.total_sales < 50))

/-- `identify_unprofitable_items` (src/main.py lines 325-343), modelled by the
list of items selected by its threshold test `avg_rating < 3.5 and
total_sales < 30`. -/
def identify_unprofitable_items (menu_items : List (String × MenuItem)) :
    List MenuItem :=
  (menu_items.map Prod.snd).filter
    (fun m => decide (m.average_rating < (3.5 : ℚ) ∧ m.total_sales < 30))

/-- A rational has at most `k` fractional decimal digits (trailing zeros
ignored) iff scaling by `10 ^ k` yields an integer.  Spec-side notion used to
state the precision-validator claims. -/
@[reducible] def decimalDigitsAtMost (v : ℚ) (k : ℕ) : Prop :=
  (v * ((10 ^ k : ℕ) : ℚ)).den = 1

/-- The per-row `try` block succeeds: no `ValueError`/`KeyError` is raised. -/
def rowOk (r : Row) : Bool :=
  match parseRow r with
  | Except.ok _ => true
  | Except.error _ => false

/-! ### Helper lemmas -/

theorem strippedLen_le (w m : ℕ) : strippedLen w m ≤ w := by
  induction w generalizing m with
  | zero => simp [strippedLen]
  | succ w ih =>
    simp only [strippedLen]
    split
    · exact (ih _).trans (Nat.le_succ w)
    · exact Nat.le_refl _

theorem roundHalfEven_intCast (n : ℤ) : roundHalfEven ((n : ℚ)) = n := by
  simp only [roundHalfEven, Int.floor_intCast, sub_self]
  rw [if_pos (by norm_num : (0 : ℚ) < 1 / 2)]

theorem splitComma_ne_nil (cs : List Char) : splitComma cs ≠ [] := by
  induction cs with
  | nil => simp [splitComma]
  | cons c cs ih =>
    simp only [splitComma]
    split
    · simp
    · split <;> simp

theorem parseFloatList_length (ts : List (List Char)) (rs : List ℚ)
    (h : parseFloatList ts = Except.ok rs) : rs.length = ts.length := by
  induction ts generalizing rs with
  | nil =>
    simp only [parseFloatList] at h
    cases h
    rfl
  | cons t ts ih =>
    simp only [parseFloatList] at h
    cases hp : parsePyFloat t with
    | none => simp only [hp] at h; cases h
    | some q =>
      simp only [hp] at h
      cases hf : parseFloatList ts with
      | error e => simp only [hf] at h; cases h
      | ok qs =>
        simp only [hf] at h
        cases h
        simp [ih qs hf]

theorem parseIntList_length (ts : List (List Char)) (ns : List ℤ)
    (h : parseIntList ts = Except.ok ns) : ns.length = ts.length := by
  induction ts generalizing ns with
  | nil =>
    simp only [parseIntList] at h
    cases h
    rfl
  | cons t ts ih =>
    simp only [parseIntList] at h
    cases hp : parsePyInt t with
    | none => simp only [hp] at h; cases h
    | some n =>
      simp only [hp] at h
      cases hf : parseIntList ts with
      | error e => simp only [hf] at h; cases h
      | ok ms =>
        simp only [hf] at h
        cases h
        simp [ih ms hf]

theorem MenuItem.init_ok (nm : String) (p : ℚ) (cat rt sd : String) (m : MenuItem)
    (h : MenuItem.init nm p cat rt sd = Except.ok m) :
    ∃ rs sv, parseFloatList (splitComma rt.data) = Except.ok rs ∧ rs ≠ [] ∧
      (splitComma sd.data).length = 7 ∧
      parseIntList (splitComma sd.data) = Except.ok sv ∧
      m = ⟨nm, p, cat, rs, days_of_week.zip sv⟩ := by
  simp only [MenuItem.init] at h
  cases hf : parseFloatList (splitComma rt.data) with
  | error e => simp only [hf] at h; cases h
  | ok rs =>
    simp only [hf] at h
    by_cases hrs : rs = []
    · rw [if_pos hrs] at h; cases h
    · rw [if_neg hrs] at h
      by_cases hlen : (splitComma sd.data).length ≠ 7
      · rw [if_pos hlen] at h; cases h
      · rw [if_neg hlen] at h
        push_neg at hlen
        cases hi : parseIntList (splitComma sd.data) with
        | error e => simp only [hi] at h; cases h
        | ok sv =>
          simp only [hi] at h
          cases h
          exact ⟨rs, sv, rfl, hrs, hlen, rfl, rfl⟩

theorem parseRow_ok (r : Row) (m : MenuItem) (h : parseRow r = Except.ok m) :
    ∃ price, parsePyFloat r.price.data = some price ∧
      validate_float_precision price 2 = true ∧
      MenuItem.init r.item price r.category r.ratings r.sales_per_day = Except.ok m := by
  simp only [parseRow] at h
  cases hf : parsePyFloat r.price.data with
  | none => simp only [hf] at h; cases h
  | some price =>
    simp only [hf] at h
    by_cases hv : validate_float_precision price 2 = true
    · rw [if_pos hv] at h
      exact ⟨price, rfl, hv, h⟩
    · rw [if_neg hv] at h; cases h

theorem parseRow_ok_price (r : Row) (m : MenuItem) (h : parseRow r = Except.ok m) :
    validate_float_precision m.price 2 = true := by
  obtain ⟨price, hf, hv, hinit⟩ := parseRow_ok r m h
  obtain ⟨rs, sv, _, _, _, _, hm⟩ := MenuItem.init_ok _ _ _ _ _ _ hinit
  subst hm
  exact hv

theorem loadRows_isSome_iff (rows : List Row) :
    ∀ acc, (loadRows acc rows).isSome = true ↔ ∀ r ∈ rows, rowOk r = true := by
  induction rows with
  | nil => intro acc; simp [loadRows]
  | cons r rest ih =>
    intro acc
    simp only [loadRows]
    cases hp : parseRow r with
    | error e =>
      dsimp only
      constructor
      · intro hsome; simp at hsome
      · intro hall
        exfalso
        have h1 := hall r (by simp)
        simp [rowOk, hp] at h1
    | ok it =>
      dsimp only
      rw [ih (dictInsert acc r.item it)]
      constructor
      · intro hall r' hr'
        rcases List.mem_cons.mp hr' with rfl | hr'
        · simp [rowOk, hp]
        · exact hall r' hr'
      · intro hall r' hr'
        exact hall r' (List.mem_cons_of_mem _ hr')

theorem dictFind_ne_none_iff (d : List (String × MenuItem)) (k : String) :
    dictFind d k ≠ none ↔ k ∈ d.map Prod.fst := by
  simp [dictFind, Option.ne_none_iff_isSome, List.find?_isSome, List.mem_map,
    beq_iff_eq]

theorem mem_keys_dictInsert (d : List (String × MenuItem)) (k : String)
    (v : MenuItem) (k' : String) (h : k' ∈ d.map Prod.fst ∨ k' = k) :
    k' ∈ (dictInsert d k v).map Prod.fst := by
  unfold dictInsert
  split
  · next hany =>
    rcases h with hmem | rfl
    · rcases List.mem_map.mp hmem with ⟨p, hp, hpk⟩
      apply List.mem_map.mpr
      refine ⟨if p.1 == k then (k, v) else p, List.mem_map_of_mem _ hp, ?_⟩
      by_cases hc : p.1 = k
      · rw [if_pos (by simpa using hc)]
        rw [← hc]
        exact hpk
      · rw [if_neg (by simpa using hc)]
        exact hpk
    · rcases List.any_eq_true.mp hany with ⟨p, hp, hpk⟩
      apply List.mem_map.mpr
      refine ⟨if p.1 == k' then (k', v) else p, List.mem_map_of_mem _ hp, ?_⟩
      rw [if_pos hpk]
  · next hany =>
    rw [List.map_append]
    rcases h with hmem | rfl
    · exact List.mem_append.mpr (Or.inl hmem)
    · simp

theorem loadRows_keys (rows : List Row) :
    ∀ acc d, loadRows acc rows = some d →
      (∀ k, k ∈ acc.map Prod.fst → k ∈ d.map Prod.fst) ∧
      (∀ r ∈ rows, r.item ∈ d.map Prod.fst) := by
  induction rows with
  | nil =>
    intro acc d h
    cases h
    exact ⟨fun k hk => hk, by simp⟩
  | cons r rest ih =>
    intro acc d h
    simp only [loadRows] at h
    cases hp : parseRow r with
    | error e => rw [hp] at h; cases h
    | ok it =>
      rw [hp] at h
      obtain ⟨hpre, hall⟩ := ih _ _ h
      constructor
      · intro k hk
        exact hpre k (mem_keys_dictInsert _ _ _ _ (Or.inl hk))
      · intro r' hr'
        rcases List.mem_cons.mp hr' with rfl | hr'
        · exact hpre _ (mem_keys_dictInsert _ _ _ _ (Or.inr rfl))
        · exact hall _ hr'

theorem dictInsert_forall (P : MenuItem → Prop) (d : List (String × MenuItem))
    (k : String) (v : MenuItem) (hd : ∀ p ∈ d, P p.2) (hv : P v) :
    ∀ p ∈ dictInsert d k v, P p.2 := by
  intro p hp
  unfold dictInsert at hp
  split at hp
  · rcases List.mem_map.mp hp with ⟨q, hq, hqe⟩
    by_cases hc : q.1 == k
    · rw [if_pos hc] at hqe
      rw [← hqe]
      exact hv
    · rw [if_neg hc] at hqe
      rw [← hqe]
      exact hd q hq
  · rcases List.mem_append.mp hp with h | h
    · exact hd p h
    · simp at h
      rw [h]
      exact hv

theorem loadRows_prices (rows : List Row) :
    ∀ acc d, (∀ p ∈ acc, validate_float_precision p.2.price 2 = true) →
      loadRows acc rows = some d →
      ∀ p ∈ d, validate_float_precision p.2.price 2 = true := by
  induction rows with
  | nil =>
    intro acc d hacc h
    cases h
    exact hacc
  | cons r rest ih =>
    intro acc d hacc h
    simp only [loadRows] at h
    cases hp : parseRow r with
    | error e => rw [hp] at h; cases h
    | ok it =>
      rw [hp] at h
      exact ih _ _
        (dictInsert_forall (fun m => validate_float_precision m.price 2 = true)
          acc r.item it hacc (parseRow_ok_price r it hp)) h

theorem strippedLen_le_of_mod (w m : ℕ) (h : m % 10 = 0) :
    strippedLen (w + 1) m ≤ w := by
  simp only [strippedLen, h, if_pos]
  exact strippedLen_le w (m / 10)

theorem strippedLen_succ_of_mod_ne (w m : ℕ) (h : m % 10 ≠ 0) :
    strippedLen (w + 1) m = w + 1 := by
  simp [strippedLen, h]

/-! ### Concrete sample data used to instantiate the universally quantified
theorems below. -/

def salesWeek : List (String × ℤ) :=
  [("Mon", 1), ("Tue", 2), ("Wed", 3), ("Thu", 4), ("Fri", 5), ("Sat", 6), ("Sun", 7)]

def sampleRow : Row := ⟨"Soup", "5.00", "Starter", "4.5,4.7,5.0", "1,2,3,4,5,6,7"⟩

def sampleItem : MenuItem := ⟨"Soup", 5, "Starter", [9/2, 47/10, 5], salesWeek⟩

def sampleRow2 : Row := ⟨"Soup", "6.50", "Starter", "2.0", "7,6,5,4,3,2,1"⟩

def sampleItem2 : MenuItem := ⟨"Soup", 13/2, "Starter", [2],
  [("Mon", 7), ("Tue", 6), ("Wed", 5), ("Thu", 4), ("Fri", 3), ("Sat", 2), ("Sun", 1)]⟩

def negPriceRow : Row := ⟨"Mystery Soup", "-5.00", "Main", "4.0", "1,1,1,1,1,1,1"⟩

def negPriceItem : MenuItem := ⟨"Mystery Soup", -5, "Main", [4],
  [("Mon", 1), ("Tue", 1), ("Wed", 1), ("Thu", 1), ("Fri", 1), ("Sat", 1), ("Sun", 1)]⟩

def partialHeader : List String := ["item", "price", "ratings", "sales_per_day"]

/-! ### Claim theorems -/

/-- Claim C1, counterexample: the decimal value 19.9999 has a 3rd (indeed a
4th) significant fractional digit, `float("19.9999")` produces it, yet
`validate_float_precision` at the default limit 2 accepts it: formatting with
3 fractional digits rounds it to `"20.000"`, whose fractional part strips to
the empty string. -/
theorem validate_precision_extra_digits_accepted :
    ¬ decimalDigitsAtMost ((199999 : ℚ) / 10000) 2 ∧
    parsePyFloat "19.9999".data = some ((199999 : ℚ) / 10000) ∧
    validate_float_precision ((199999 : ℚ) / 10000) 2 = true := by
  refine ⟨by decide, by decide, by decide⟩

/-- Claim C1, amended: with the default limit 2, `validate_float_precision`
accepts every decimal value with at most 2 significant fractional digits, and
rejects every decimal value with exactly 3 significant fractional digits
(trailing zeros ignored).  Values with 4 or more fractional digits are judged
after rounding to 3 fractional digits, so they are not all rejected (see the
counterexample). -/
theorem validate_precision_within_rounding (v : ℚ) :
    (decimalDigitsAtMost v 2 → validate_float_precision v 2 = true) ∧
    (decimalDigitsAtMost v 3 → ¬ decimalDigitsAtMost v 2 →
      validate_float_precision v 2 = false) := by
  constructor
  · intro h
    have hq : ((v * ((10 ^ 2 : ℕ) : ℚ)).num : ℚ) = v * ((10 ^ 2 : ℕ) : ℚ) :=
      (Rat.den_eq_one_iff _).mp h
    set n : ℤ := (v * ((10 ^ 2 : ℕ) : ℚ)).num with hn
    push_cast at hq
    have h1000 : v * ((10 ^ (2 + 1) : ℕ) : ℚ) = ((n * 10 : ℤ) : ℚ) := by
      push_cast
      linarith [hq]
    simp only [validate_float_precision, h1000, roundHalfEven_intCast,
      decide_eq_true_eq]
    norm_num
    have habs : (n * 10).natAbs = n.natAbs * 10 := by
      rw [Int.natAbs_mul]
      norm_num
    rw [habs]
    exact strippedLen_le_of_mod 2 _ (by omega)
  · intro h3 h2
    have hq : ((v * ((10 ^ 3 : ℕ) : ℚ)).num : ℚ) = v * ((10 ^ 3 : ℕ) : ℚ) :=
      (Rat.den_eq_one_iff _).mp h3
    set n : ℤ := (v * ((10 ^ 3 : ℕ) : ℚ)).num with hn
    push_cast at hq
    have h1000 : v * ((10 ^ (2 + 1) : ℕ) : ℚ) = ((n : ℤ) : ℚ) := by
      push_cast
      linarith [hq]
    have hnd : ¬ (10 : ℤ) ∣ n := by
      rintro ⟨c, hc⟩
      apply h2
      have hc100 : v * ((10 ^ 2 : ℕ) : ℚ) = ((c : ℤ) : ℚ) := by
        push_cast
        rw [hc] at hq
        push_cast at hq
        linarith [hq]
      rw [decimalDigitsAtMost, hc100]
      exact Rat.den_intCast c
    have hnat : ¬ (10 : ℕ) ∣ n.natAbs := by
      intro hd
      exact hnd (Int.natAbs_dvd_natAbs.mp (by simpa using hd))
    simp only [validate_float_precision, h1000, roundHalfEven_intCast,
      decide_eq_false_iff_not]
    norm_num
    have h33 : strippedLen 3 (n.natAbs % 1000) = 3 :=
      strippedLen_succ_of_mod_ne 2 _ (by omega)
    omega

/-- Claim C1, witness: 19.99 (two significant fractional digits; the same
rational as 19.990) is accepted and 19.999 (three significant fractional
digits) is rejected, at the default limit 2. -/
theorem validate_precision_within_rounding_witness :
    validate_float_precision ((1999 : ℚ) / 100) 2 = true ∧
    validate_float_precision ((19999 : ℚ) / 1000) 2 = false :=
  ⟨(validate_precision_within_rounding ((1999 : ℚ) / 100)).1 (by decide),
   (validate_precision_within_rounding ((19999 : ℚ) / 1000)).2
     (by decide) (by decide)⟩

/-- Claim C2: the load is all-or-nothing.  The loader returns a mapping iff
every row's try-block succeeds (so on any row failure — price parse or
precision, ratings parse, or sales arity — the caller receives `none` and
never a partial mapping), and when it does return a mapping, every row's item
name is present in it. -/
theorem load_all_or_nothing (rows : List Row) :
    ((load_data_from_csv rows).isSome = true ↔ ∀ r ∈ rows, rowOk r = true) ∧
    (∀ d, load_data_from_csv rows = some d →
      ∀ r ∈ rows, dictFind d r.item ≠ none) := by
  constructor
  · exact loadRows_isSome_iff rows []
  · intro d hd r hr
    rw [dictFind_ne_none_iff]
    exact (loadRows_keys rows [] d hd).2 r hr

/-- Claim C2, witness: a one-row source whose row parses loads successfully
and its item name is present in the result. -/
theorem load_all_or_nothing_witness :
    (load_data_from_csv [sampleRow]).isSome = true ∧
    dictFind [("Soup", sampleItem)] sampleRow.item ≠ none :=
  ⟨(load_all_or_nothing [sampleRow]).1.mpr (by decide),
   (load_all_or_nothing [sampleRow]).2 [("Soup", sampleItem)] (by decide)
     sampleRow (by decide)⟩

/-- Claim C3: an item is selected by `identify_underrated_items` iff it is one
of the mapping's items and satisfies `average_rating >= 4.5` and
`total_sales < 50`; on an empty mapping the selection is empty (an empty
result is an ordinary value, not an error). -/
theorem underrated_set_spec :
    (∀ (menu_items : List (String × MenuItem)) (m : MenuItem),
      m ∈ identify_underrated_items menu_items ↔
        m ∈ menu_items.map Prod.snd ∧
          m.average_rating ≥ (4.5 : ℚ) ∧ m.total_sales < 50) ∧
    identify_underrated_items [] = [] := by
  constructor
  · intro menu_items m
    simp [identify_underrated_items, List.mem_filter]
  · rfl

/-- Claim C4: an item is selected by `identify_unprofitable_items` iff it is
one of the mapping's items and satisfies `average_rating < 3.5` and
`total_sales < 30`; on an empty mapping the selection is empty (an empty
result is an ordinary value, not an error). -/
theorem unprofitable_set_spec :
    (∀ (menu_items : List (String × MenuItem)) (m : MenuItem),
      m ∈ identify_unprofitable_items menu_items ↔
        m ∈ menu_items.map Prod.snd ∧
          m.average_rating < (3.5 : ℚ) ∧ m.total_sales < 30) ∧
    identify_unprofitable_items [] = [] := by
  constructor
  · intro menu_items m
    simp [identify_unprofitable_items, List.mem_filter]
  · rfl

/-- Claim C5: for every constructed `MenuItem`, `average_rating` is the
arithmetic mean of the ratings, `total_sales` is the sum of the 7
`sales_per_day` values, and `popularity_score` is
`0.6 * total_sales + 0.4 * 10 * average_rating`; all three are pure functions
of the item, recomputed on demand. -/
theorem derived_metrics_spec (nm : String) (p : ℚ) (cat rt sd : String)
    (m : MenuItem) (h : MenuItem.init nm p cat rt sd = Except.ok m) :
    m.average_rating = m.ratings.sum / (m.ratings.length : ℚ) ∧
    m.sales_per_day.length = 7 ∧
    m.total_sales = (m.sales_per_day.map Prod.snd).sum ∧
    m.popularity_score =
      (0.6 : ℚ) * (m.total_sales : ℚ) + (0.4 : ℚ) * 10 * m.average_rating := by
  obtain ⟨rs, sv, hf, hrs, hlen, hi, hm⟩ := MenuItem.init_ok nm p cat rt sd m h
  subst hm
  refine ⟨?_, ?_, rfl, ?_⟩
  · simp [MenuItem.average_rating, hrs]
  · have hsv := parseIntList_length _ _ hi
    simp [days_of_week, List.length_zip, hsv, hlen]
  · unfold MenuItem.popularity_score
    ring

/-- Claim C5, witness: the metrics of a concretely constructed item. -/
theorem derived_metrics_spec_witness :
    sampleItem.average_rating = sampleItem.ratings.sum / (sampleItem.ratings.length : ℚ) ∧
    sampleItem.sales_per_day.length = 7 ∧
    sampleItem.total_sales = (sampleItem.sales_per_day.map Prod.snd).sum ∧
    sampleItem.popularity_score =
      (0.6 : ℚ) * (sampleItem.total_sales : ℚ) +
        (0.4 : ℚ) * 10 * sampleItem.average_rating :=
  derived_metrics_spec "Soup" 5 "Starter" "4.5,4.7,5.0" "1,2,3,4,5,6,7"
    sampleItem (by decide)

/-- Claim C6: a `MenuItem` is constructed only if the sales field splits on
commas into exactly 7 tokens that all parse as integers, zipped positionally
with the weekday keys Mon..Sun in that fixed order; with any other token
count no `MenuItem` is produced, and (once the earlier ratings stage has
passed) the failure is the format error naming the expected count 7. -/
theorem sales_arity_spec (nm : String) (p : ℚ) (cat rt sd : String) :
    (∀ m, MenuItem.init nm p cat rt sd = Except.ok m →
      (splitComma sd.data).length = 7 ∧
      ∃ sv, parseIntList (splitComma sd.data) = Except.ok sv ∧
        m.sales_per_day = days_of_week.zip sv) ∧
    ((splitComma sd.data).length ≠ 7 →
      (∀ m, MenuItem.init nm p cat rt sd ≠ Except.ok m) ∧
      (∀ rs, parseFloatList (splitComma rt.data) = Except.ok rs →
        MenuItem.init nm p cat rt sd = Except.error (salesArityError nm))) := by
  constructor
  · intro m h
    obtain ⟨rs, sv, hf, hrs, hlen, hi, hm⟩ := MenuItem.init_ok nm p cat rt sd m h
    subst hm
    exact ⟨hlen, sv, hi, rfl⟩
  · intro hne
    constructor
    · intro m h
      obtain ⟨rs, sv, hf, hrs, hlen, hi, hm⟩ :=
        MenuItem.init_ok nm p cat rt sd m h
      exact hne hlen
    · intro rs hf
      have hrs : rs ≠ [] := by
        intro hnil
        have h1 := parseFloatList_length _ _ hf
        rw [hnil] at h1
        exact splitComma_ne_nil rt.data (List.length_eq_zero.mp h1.symm)
      simp only [MenuItem.init, hf]
      rw [if_neg hrs, if_pos hne]

/-- Claim C6, witness: with 6 and with 8 sales tokens (and a valid ratings
field) construction fails with the error naming the expected count 7. -/
theorem sales_arity_spec_witness :
    MenuItem.init "X" 1 "C" "4.0" "1,2,3,4,5,6" = Except.error (salesArityError "X") ∧
    MenuItem.init "X" 1 "C" "4.0" "1,2,3,4,5,6,7,8" = Except.error (salesArityError "X") :=
  ⟨((sales_arity_spec "X" 1 "C" "4.0" "1,2,3,4,5,6").2 (by decide)).2
      [4] (by decide),
   ((sales_arity_spec "X" 1 "C" "4.0" "1,2,3,4,5,6,7,8").2 (by decide)).2
      [4] (by decide)⟩

/-- Claim C7: when two rows carry the same item name and both parse, the
loaded mapping contains exactly one entry under that name, holding the later
row's data (silent last-write-wins). -/
theorem duplicate_name_last_write_wins (r1 r2 : Row) (i1 i2 : MenuItem)
    (hname : r1.item = r2.item)
    (h1 : parseRow r1 = Except.ok i1) (h2 : parseRow r2 = Except.ok i2) :
    load_data_from_csv [r1, r2] = some [(r2.item, i2)] := by
  simp only [load_data_from_csv, loadRows, h1, h2]
  simp [dictInsert, hname]

/-- Claim C7, witness: two concrete rows named "Soup"; the mapping holds only
the second row's item. -/
theorem duplicate_name_last_write_wins_witness :
    load_data_from_csv [sampleRow, sampleRow2] = some [(sampleRow2.item, sampleItem2)] :=
  duplicate_name_last_write_wins sampleRow sampleRow2 sampleItem sampleItem2
    (by decide) (by decide) (by decide)

/-- Claim C8, counterexample: the loader never checks the sign of a price.  A
row priced "-5.00" loads successfully and the resulting item's price is
negative. -/
theorem negative_price_loads :
    load_data_from_csv [negPriceRow] = some [("Mystery Soup", negPriceItem)] ∧
    negPriceItem.price < 0 := by
  refine ⟨by decide, by decide⟩

/-- Claim C8, amended: every `MenuItem` in the mapping returned by a
successful load has a price accepted by `validate_float_precision` at the
default limit 2 (enforced before the item is constructed).  Non-negativity is
not enforced (see the counterexample), and by C1 the precision gate itself
admits prices whose extra fractional digits vanish when rounded to 3
places. -/
theorem loaded_prices_validated (rows : List Row)
    (d : List (String × MenuItem)) (hd : load_data_from_csv rows = some d) :
    ∀ p ∈ d, validate_float_precision p.2.price 2 = true := by
  exact loadRows_prices rows [] d (by simp) hd

/-- Claim C8, witness: the precision-validated price of a concretely loaded
item. -/
theorem loaded_prices_validated_witness :
    validate_float_precision sampleItem.price 2 = true :=
  loaded_prices_validated [sampleRow] [("Soup", sampleItem)] (by decide)
    ("Soup", sampleItem) (by decide)

/-- Claim C9: with an absent header, or with any required column of
{item, price, category, ratings, sales_per_day} missing, the structural check
fails and the pipeline yields no data whatever the rows are — no row is
parsed — and every absent required column is named in the reported
missing-columns list. -/
theorem structural_check_gates_loading (fns : List String) (rows : List Row) :
    (main_flow none rows = none) ∧
    (missing_fields fns ≠ [] →
      validate_csv_structure (some fns) = false ∧
      main_flow (some fns) rows = none) ∧
    (∀ f ∈ required_fields, f ∉ fns → f ∈ missing_fields fns) := by
  refine ⟨rfl, ?_, ?_⟩
  · intro hmf
    have hv : validate_csv_structure (some fns) = false := by
      simp only [validate_csv_structure]
      split
      · rfl
      · simpa [List.isEmpty_iff] using hmf
    exact ⟨hv, by simp [main_flow, hv]⟩
  · intro f hfr hfn
    simp [missing_fields, List.mem_filter, hfr, hfn]

/-- Claim C9, witness: a header missing the category column fails the
structural check, yields no data for a parseable row list, and names
"category" among the missing columns. -/
theorem structural_check_gates_loading_witness :
    (main_flow none [sampleRow] = none) ∧
    validate_csv_structure (some partialHeader) = false ∧
    main_flow (some partialHeader) [sampleRow] = none ∧
    "category" ∈ missing_fields partialHeader :=
  ⟨(structural_check_gates_loading partialHeader [sampleRow]).1,
   ((structural_check_gates_loading partialHeader [sampleRow]).2.1 (by decide)).1,
   ((structural_check_gates_loading partialHeader [sampleRow]).2.1 (by decide)).2,
   (structural_check_gates_loading partialHeader [sampleRow]).2.2
     "category" (by decide) (by decide)⟩

/-- Claim C10: every `MenuItem` the constructor returns has a non-empty
ratings list and its `average_rating` is computed by the division branch (the
zero-ratings fallback is not used); the explicit empty-ratings error branch
can never fire, because a successful ratings parse is never empty (a split
always yields at least one token); and an empty ratings field fails as a
single empty token that does not parse as a float — not as an empty-sequence
error. -/
theorem ratings_nonempty_spec (nm : String) (p : ℚ) (cat sd : String) :
    (∀ (rt : String) (m : MenuItem), MenuItem.init nm p cat rt sd = Except.ok m →
      m.ratings ≠ [] ∧
      m.average_rating = m.ratings.sum / (m.ratings.length : ℚ)) ∧
    (∀ (rt : String) (rs : List ℚ),
      parseFloatList (splitComma rt.data) = Except.ok rs → rs ≠ []) ∧
    (MenuItem.init nm p cat "" sd = Except.error (floatConversionError "")) := by
  refine ⟨?_, ?_, ?_⟩
  · intro rt m h
    obtain ⟨rs, sv, hf, hrs, hlen, hi, hm⟩ := MenuItem.init_ok nm p cat rt sd m h
    subst hm
    exact ⟨hrs, by simp [MenuItem.average_rating, hrs]⟩
  · intro rt rs h
    intro hnil
    have h1 := parseFloatList_length _ _ h
    rw [hnil] at h1
    exact splitComma_ne_nil rt.data (List.length_eq_zero.mp h1.symm)
  · rfl

/-- Claim C10, witness: a concretely constructed item has non-empty ratings
and mean-computed average, and a concrete successful ratings parse is
non-empty. -/
theorem ratings_nonempty_spec_witness :
    (sampleItem.ratings ≠ [] ∧
      sampleItem.average_rating =
        sampleItem.ratings.sum / (sampleItem.ratings.length : ℚ)) ∧
    [(4 : ℚ)] ≠ [] :=
  ⟨(ratings_nonempty_spec "Soup" 5 "Starter" "1,2,3,4,5,6,7").1
      "4.5,4.7,5.0" sampleItem (by decide),
   (ratings_nonempty_spec "Soup" 5 "Starter" "1,2,3,4,5,6,7").2.1
      "4.0" [4] (by decide)⟩
